import Mathlib

/-
  Verification of the modal-convert video transcoding service against its
  natural-language specification.

  The embedding below translates the repository's Python sources into Lean:
    - src/core/storage.py : the storage backends (state records, files)
    - src/core/worker.py  : the transcode pipeline (transcode_video,
                            build_ffmpeg_command, run_ffmpeg_with_progress)
    - src/core/api.py     : the FastAPI handlers (submit, status, download,
                            sse_progress)
    - src/main.py         : the Modal variant (transcode_worker,
                            cleanup_old_files, delete_file_task, submit,
                            sse_progress)

  External effects (HTTP fetch outcomes, ffmpeg stdout lines, wall-clock
  readings, process exit codes) are parameters of the embedding; state-record
  writes are collected as explicit traces in program order.
-/

namespace ModalConvert

/-- Job lifecycle status values written into state records; `unknown` is the
fallback used by the SSE loop when a job id has no record. -/
inductive Status
  | queued
  | downloading
  | encoding
  | completed
  | failed
  | unknown
deriving DecidableEq

/-- A job state record: the Python dict stored per job id.  `none` in an
optional field models an absent dict key. -/
structure StateRec where
  status : Status
  progress : ℤ
  message : Option String
  file_path : Option (String × String)
  file_name : Option String
  created_at : Option ℚ
  downloaded : Option Bool
  deleted : Option Bool
  deleted_at : Option ℚ
deriving DecidableEq

/-- Build a record holding only status, progress and message, as the dict
literals in worker.py and api.py do. -/
def mkRec (s : Status) (p : ℤ) (m : String) : StateRec :=
  ⟨s, p, some m, none, none, none, none, none, none⟩

/-- The initial record written by submit (core/api.py line 25, main.py
line 328). -/
def queuedRec : StateRec := mkRec .queued 0 "Queued"

/-- The fallback dict used by the SSE loop when the store has no record
(core/api.py line 71, main.py line 365); it has no message key. -/
def unknownRec : StateRec :=
  ⟨.unknown, 0, none, none, none, none, none, none, none⟩

/-- Python `int(x)` applied to a real value: truncation toward zero. -/
def pyTrunc (q : ℚ) : ℤ := if 0 ≤ q then ⌊q⌋ else ⌈q⌉

/-- Python `x or d` for an optional integer `x`: both `None` and `0` are
falsy, so they select the default. -/
def pyOrInt (x : Option ℤ) (d : ℤ) : ℤ :=
  match x with
  | none => d
  | some v => if v = 0 then d else v

/-- The codec enum from the external rs_common_interfaces_py package; the
repository's code distinguishes only AV1 and H265, every other member takes
the software-fallback branch. -/
inductive RsVideoCodec
  | AV1
  | H265
  | otherCodec
deriving DecidableEq

/-- The request parameters of a job that the transcode code reads: codec,
quality (crf), and the target container's extension
(`job.request.format.to_extension()`). -/
structure ConvertRequest where
  codec : Option RsVideoCodec
  crf : Option ℤ
  formatExt : String
deriving DecidableEq

/-- The source reference of a job; `url` is `none` when absent and
`some ""` when present but empty (both falsy in Python). -/
structure SourceRef where
  url : Option String
deriving DecidableEq

/-- A submitted job payload (`VideoConvertJob` from the external package). -/
structure VideoConvertJob where
  source : Option SourceRef
  request : ConvertRequest
deriving DecidableEq

/-- The submit validation `if not job.source or not job.source.url`
(core/api.py line 21, main.py line 323). -/
def sourceUrlPresent (job : VideoConvertJob) : Bool :=
  match job.source with
  | none => false
  | some s =>
      match s.url with
      | none => false
      | some u => u ≠ ""

/-- The codec defaulting step `if not job.request.codec: job.request.codec =
RsVideoCodec.AV1` (core/worker.py lines 30-31, main.py lines 62-63); enum
members are truthy in Python, so only an absent codec is replaced. -/
def setDefaultCodec (r : ConvertRequest) : ConvertRequest :=
  match r.codec with
  | none => ⟨some RsVideoCodec.AV1, r.crf, r.formatExt⟩
  | some _ => r

/-- Flat filesystem model shared by both storage backends and the sweeper: a
file is identified by its (containing directory, file name) pair; `dirs`
lists the existing job-scoped directories. -/
structure FS where
  files : List (String × String)
  dirs : List String
deriving DecidableEq

/-- LocalStorage.delete_file (core/storage.py lines 82-88): `p.unlink()` when
the path exists, then `p.parent.rmdir()` when the parent still exists and
`p.parent.iterdir()` is empty. -/
def LocalStorage.delete_file (fs : FS) (p : String × String) : FS :=
  if p ∈ fs.files then
    let files' := fs.files.erase p
    if p.1 ∈ fs.dirs ∧ (files'.filter (fun q => q.1 = p.1)).isEmpty then
      ⟨files', fs.dirs.erase p.1⟩
    else
      ⟨files', fs.dirs⟩
  else fs

/-- ModalStorage.delete_file (core/storage.py lines 119-124): `os.remove`
when `os.path.exists(path)`, then `os.rmdir(job_dir)` when the dirname is a
directory and `os.listdir(job_dir)` is empty. -/
def ModalStorage.delete_file (fs : FS) (p : String × String) : FS :=
  if p ∈ fs.files then
    let files' := fs.files.erase p
    if p.1 ∈ fs.dirs ∧ (files'.filter (fun q => q.1 = p.1)).isEmpty then
      ⟨files', fs.dirs.erase p.1⟩
    else
      ⟨files', fs.dirs⟩
  else fs

/-- Modelled from the spec (section 4.1): `delete_file` "removes the file
and, if its parent container becomes empty, removes the container too",
and "must be safe to call on an already-missing path — a no-op, not an
error".  Used as the specification side of the refinement for C9. -/
def delete_file_spec (fs : FS) (p : String × String) : FS :=
  if p ∈ fs.files then
    let files' := fs.files.erase p
    ⟨files',
      if (files'.filter (fun q => q.1 = p.1)).isEmpty then fs.dirs.erase p.1
      else fs.dirs⟩
  else fs

/-- LocalStorage.get_file_path (core/storage.py lines 74-77): the output
file lives in a job-scoped directory under the files directory. -/
def LocalStorage.get_file_path (filesDir jobId fname : String) : String × String :=
  (filesDir ++ "/" ++ jobId, fname)

/-- ModalStorage.get_file_path (core/storage.py lines 111-114): the output
file lives in `{volume_path}/{job_id}`. -/
def ModalStorage.get_file_path (volumePath jobId fname : String) : String × String :=
  (volumePath ++ "/" ++ jobId, fname)

/-- The record mutation performed by delete_file_task (main.py lines
247-250): set only the deleted / deleted_at keys, keep every other key. -/
def markDeleted (d : StateRec) (t : ℚ) : StateRec :=
  { d with deleted := some true, deleted_at := some t }

/-- One job's iteration of the cleanup_old_files scan (main.py lines
271-304).  `cutoff` is `time.time() - RETENTION_HOURS * 3600` computed once
at sweep start; `tDel` is the clock reading taken when the deletion happens.
Returns the (possibly updated) record and filesystem. -/
def cleanupJob (cutoff tDel : ℚ) (recd : StateRec) (fs : FS) : StateRec × FS :=
  if recd.status = .completed
      ∧ (recd.downloaded.getD false) = false
      ∧ (recd.deleted.getD false) = false
      ∧ (recd.created_at.getD 0) < cutoff then
    match recd.file_path with
    | some p =>
        if p ∈ fs.files then
          let files' := fs.files.erase p
          let fs' : FS :=
            if p.1 ∈ fs.dirs ∧ (files'.filter (fun q => q.1 = p.1)).isEmpty then
              ⟨files', fs.dirs.erase p.1⟩
            else
              ⟨files', fs.dirs⟩
          (markDeleted recd tDel, fs')
        else (recd, fs)
    | none => (recd, fs)
  else (recd, fs)

/-- The retention window constant of cleanup_old_files (main.py lines
264-267): RETENTION_HOURS = 24, cutoff = now - 24 * 3600 seconds. -/
def retentionCutoff (now : ℚ) : ℚ := now - 24 * 3600

/-- The shared job-id to state-record mapping (progress_kv / the state
directory), newest write first. -/
def StoreMap := List (String × StateRec)

/-- set_state / `progress_kv[job_id] = data`: full overwrite of the record
under the key. -/
def setState (store : StoreMap) (id : String) (d : StateRec) : StoreMap :=
  (id, d) :: store

/-- get_state / `progress_kv.get(job_id)`: the most recent record under the
key, absent keys give `none`. -/
def getState (store : StoreMap) (id : String) : Option StateRec :=
  match store with
  | [] => none
  | (k, d) :: rest => if k = id then some d else getState rest id

/-- The externally visible effects of the submit handler, in program
order. -/
inductive SubmitEffect
  | writeState (id : String) (d : StateRec)
  | spawnWorker (id : String)
deriving DecidableEq

/-- The submit handler (core/api.py lines 19-34; identical effect order in
main.py lines 318-330): validate the source url, write the initial queued
record, hand the job to the worker, return the job id.  A missing url gives
HTTP 400 and no effects. -/
def submit (newId : String) (job : VideoConvertJob) (store : StoreMap) :
    Except ℕ (List SubmitEffect × StoreMap × String) :=
  if sourceUrlPresent job then
    .ok ([.writeState newId queuedRec, .spawnWorker newId],
         setState store newId queuedRec, newId)
  else
    .error 400

/-- The status handler (core/api.py lines 36-41, main.py lines 332-338):
404 when the record is absent. -/
def statusEndpoint (store : StoreMap) (id : String) : Except ℕ StateRec :=
  match getState store id with
  | none => .error 404
  | some d => .ok d

/-- The SSE progress loop body (core/api.py lines 68-80, main.py lines
362-372), unfolded with fuel.  `poll t` is the store read at tick `t`;
`sentDone` is the flag of the source; each yielded record is collected.  The
source yields the polled record first and only then checks the terminal
condition, breaking when `sent_done` was already set. -/
def sseRun (poll : ℕ → Option StateRec) : ℕ → Bool → ℕ → List StateRec
  | 0, _, _ => []
  | fuel + 1, sentDone, t =>
      let d := (poll t).getD unknownRec
      if d.status = .completed ∨ d.status = .failed then
        if sentDone then [d]
        else d :: sseRun poll fuel true (t + 1)
      else
        d :: sseRun poll fuel sentDone (t + 1)

/-- One line read from the ffmpeg stdout pipe, as classified by the progress
loop (worker.py lines 187-196): an `out_time_ms=` line whose value parses as
a float, an `out_time_ms=` line whose value fails `float(...)` (the inner
`except` ignores it), or any other line. -/
inductive FfLine
  | outTime (v : ℚ)
  | outTimeBad
  | otherLine
deriving DecidableEq

/-- The per-line percentage update (worker.py lines 190-196, main.py lines
192-198): on a parsed `out_time_ms=` line, when the probed duration is
truthy and positive, recompute `min(99, int(out_time_ms / (duration_s *
1000.0) * 100))`; in every other case keep the previous value. -/
def pctStep (duration_s : Option ℚ) (pct : ℤ) : FfLine → ℤ
  | .outTime v =>
      match duration_s with
      | some d => if 0 < d then min 99 (pyTrunc (v / (d * 1000) * 100)) else pct
      | none => pct
  | .outTimeBad => pct
  | .otherLine => pct

/-- build_ffmpeg_command (core/worker.py lines 101-158): three invocation
profiles selected by `use_gpu` and the codec; the quality argument is
`str(job.request.crf or 32)` on the hardware-AV1 and software paths and
`str(job.request.crf or 28)` on the hardware-HEVC path. -/
def build_ffmpeg_command (job : VideoConvertJob) (src dst : String)
    (use_gpu : Bool) : List String :=
  if use_gpu = true ∧ job.request.codec = some RsVideoCodec.AV1 then
    ["ffmpeg", "-hide_banner", "-nostats", "-y",
     "-hwaccel", "cuda",
     "-hwaccel_output_format", "cuda",
     "-i", src,
     "-c:v", "av1_nvenc",
     "-preset", "p4",
     "-cq", toString (pyOrInt job.request.crf 32),
     "-b:v", "0",
     "-c:a", "aac",
     "-b:a", "192k",
     "-ar", "48000",
     "-movflags", "+faststart",
     "-progress", "pipe:1",
     dst]
  else if use_gpu = true ∧ job.request.codec = some RsVideoCodec.H265 then
    ["ffmpeg", "-hide_banner", "-nostats", "-y",
     "-hwaccel", "cuda",
     "-hwaccel_output_format", "cuda",
     "-i", src,
     "-c:v", "hevc_nvenc",
     "-preset", "p4",
     "-cq", toString (pyOrInt job.request.crf 28),
     "-b:v", "0",
     "-c:a", "aac",
     "-b:a", "192k",
     "-ar", "48000",
     "-movflags", "+faststart",
     "-progress", "pipe:1",
     dst]
  else
    ["ffmpeg", "-hide_banner", "-nostats", "-y",
     "-i", src,
     "-c:v", "libsvtav1",
     "-crf", toString (pyOrInt job.request.crf 32),
     "-preset", "6",
     "-pix_fmt", "yuv420p",
     "-c:a", "aac",
     "-b:a", "192k",
     "-ar", "48000",
     "-movflags", "+faststart",
     "-progress", "pipe:1",
     dst]

/-- The encoding progress loop (run_ffmpeg_with_progress, worker.py lines
177-206; the same loop inline in main.py lines 181-208).  Each stdout line
is paired with the `time.time()` reading of its iteration; a throttled
"Encoding in progress" write is emitted when more than half a second passed
since the last emission.  Returns the emitted writes in order and the final
value of `pct`. -/
def encodeLoop (dur : Option ℚ) :
    List (FfLine × ℚ) → ℤ → ℚ → List StateRec × ℤ
  | [], pct, _ => ([], pct)
  | (ln, now) :: rest, pct, lastEmit =>
      if 1 / 2 < now - lastEmit then
        (mkRec .encoding (pctStep dur pct ln) "Encoding in progress" ::
           (encodeLoop dur rest (pctStep dur pct ln) now).1,
         (encodeLoop dur rest (pctStep dur pct ln) now).2)
      else
        encodeLoop dur rest (pctStep dur pct ln) lastEmit

/-- The successfully parsed `out_time_ms` values of a line list, in order. -/
def parsedTimes (lines : List (FfLine × ℚ)) : List ℚ :=
  lines.filterMap (fun lc =>
    match lc.1 with
    | .outTime v => some v
    | _ => none)

/-- The external-effect outcomes one run of the worker observes: the source
fetch (an exception message when `requests.get` / `raise_for_status`
raises), the probed duration, the initial `time.time()` reading taken as
`last_emit`, the stdout lines read (with their clock readings) before the
stream ends or raises, an optional exception raised while iterating the
stream, and the process exit code. -/
structure WorkerEnv where
  fetchErr : Option String
  duration_s : Option ℚ
  t0 : ℚ
  lines : List (FfLine × ℚ)
  streamErr : Option String
  exitCode : ℤ
deriving DecidableEq

/-- transcode_video (core/worker.py lines 14-80).  Returns the sequence of
set_state writes in program order, and `some msg` when an exception escapes
the function (the source has no try/except around the download, so a fetch
failure propagates to the caller after only the "downloading" write).  A
stream exception or a non-zero exit makes run_ffmpeg_with_progress return
False and the final write is the generic failed record with progress 0. -/
def transcode_video (jobId : String) (job : VideoConvertJob)
    (storagePath : String → String → String × String) (env : WorkerEnv) :
    List StateRec × Option String :=
  let w0 := mkRec .downloading 0 "Downloading source"
  let req := setDefaultCodec job.request
  match env.fetchErr with
  | some e => ([w0], some e)
  | none =>
      let dst := storagePath jobId ("output" ++ req.formatExt)
      let w1 := mkRec .encoding 0 "Encoding started"
      let r := encodeLoop env.duration_s env.lines 0 env.t0
      let success :=
        match env.streamErr with
        | some _ => false
        | none => env.exitCode = 0
      let final :=
        if success then
          ⟨.completed, 100, some "Done", some dst,
            some ("output" ++ req.formatExt), none, none, none, none⟩
        else mkRec .failed 0 "Encoding failed"
      (w0 :: w1 :: r.1 ++ [final], none)

/-- transcode_worker (main.py lines 57-232).  Same pipeline as
transcode_video, but the failure writes keep the last observed `pct` and
carry a diagnostic message: `"FFmpeg exited with code {ret}"` on a non-zero
exit and `"Error: {e}"` on an exception in the progress loop; the completed
write stores `/vol/{job_id}/output{ext}` and the literal file name
"output.mkv". -/
def transcode_worker (jobId : String) (job : VideoConvertJob)
    (env : WorkerEnv) : List StateRec × Option String :=
  let w0 := mkRec .downloading 0 "Downloading source"
  let req := setDefaultCodec job.request
  match env.fetchErr with
  | some e => ([w0], some e)
  | none =>
      let dst : String × String := ("/vol/" ++ jobId, "output" ++ req.formatExt)
      let w1 := mkRec .encoding 0 "Encoding started"
      let r := encodeLoop env.duration_s env.lines 0 env.t0
      match env.streamErr with
      | some e =>
          (w0 :: w1 :: r.1 ++ [mkRec .failed r.2 ("Error: " ++ e)], none)
      | none =>
          if env.exitCode ≠ 0 then
            (w0 :: w1 :: r.1 ++
              [mkRec .failed r.2
                ("FFmpeg exited with code " ++ toString env.exitCode)], none)
          else
            (w0 :: w1 :: r.1 ++
              [⟨.completed, 100, some "Done", some dst, some "output.mkv",
                none, none, none, none⟩], none)

/-- Closure of every state record the program can ever store: the submit
write, the worker's lifecycle writes (both variants), and the two
deletion-metadata updates (delete_file_task after a download, and the
sweeper), which read a stored record and change only deleted/deleted_at.
No constructor touches the `downloaded` key. -/
inductive ReachableRec : StateRec → Prop
  | submitWrite : ReachableRec queuedRec
  | downloadingWrite : ReachableRec (mkRec .downloading 0 "Downloading source")
  | encodingStartWrite : ReachableRec (mkRec .encoding 0 "Encoding started")
  | progressWrite (pct : ℤ) :
      ReachableRec (mkRec .encoding pct "Encoding in progress")
  | completedWrite (p : String × String) (fname : String) :
      ReachableRec
        ⟨.completed, 100, some "Done", some p, some fname, none, none, none, none⟩
  | failedCoreWrite : ReachableRec (mkRec .failed 0 "Encoding failed")
  | failedMainWrite (pct : ℤ) (msg : String) :
      ReachableRec (mkRec .failed pct msg)
  | deleteTaskWrite (d : StateRec) (t : ℚ) :
      ReachableRec d → ReachableRec (markDeleted d t)
  | sweeperWrite (cutoff tDel : ℚ) (d : StateRec) (fs : FS) :
      ReachableRec d → ReachableRec (cleanupJob cutoff tDel d fs).1

/-- A well-formed submission used in concrete instances: a valid source url,
no codec, no quality value, mkv target. -/
def sampleJob : VideoConvertJob :=
  ⟨some ⟨some "http://example.com/in.mp4"⟩, ⟨none, none, ".mkv"⟩⟩

/-- The LocalStorage path function with the default base directory. -/
def sampleStoragePath : String → String → String × String :=
  LocalStorage.get_file_path "./data/files"

/-- Environment where the source fetch raises (network timeout). -/
def fetchFailEnv : WorkerEnv := ⟨some "ConnectTimeout", none, 0, [], none, 0⟩

/-- Environment where encoding reaches 50 percent (duration 1s, one
out_time_ms line worth 50 percent, emitted past the throttle) and ffmpeg
then exits with code 1. -/
def exitFailEnv : WorkerEnv := ⟨none, some 1, 0, [(.outTime 500, 1)], none, 1⟩

/-- Environment of a successful encode that reaches 50 percent and exits
with code 0. -/
def progressEnv : WorkerEnv := ⟨none, some 1, 0, [(.outTime 500, 1)], none, 0⟩

/-- A concrete completed record (the shape the workers write on success). -/
def doneRec : StateRec :=
  ⟨.completed, 100, some "Done", some ("/vol/j", "output.mkv"),
    some "output.mkv", none, none, none, none⟩

/-- A completed, undownloaded, undeleted record created exactly at the
retention boundary for now = 100000 (created_at = 100000 - 24 * 3600). -/
def boundaryRec : StateRec :=
  ⟨.completed, 100, some "Done", some ("/vol/j", "output.mkv"),
    some "output.mkv", some 13600, none, none, none⟩

/-- The same record created one second earlier than the boundary. -/
def olderRec : StateRec :=
  ⟨.completed, 100, some "Done", some ("/vol/j", "output.mkv"),
    some "output.mkv", some 13599, none, none, none⟩

/-- A filesystem holding exactly the boundary job's output file. -/
def boundaryFS : FS := ⟨[("/vol/j", "output.mkv")], ["/vol/j"]⟩

/-- A job requesting hardware AV1 with an explicit quality value of 0. -/
def jobCrf0 : VideoConvertJob :=
  ⟨some ⟨some "u"⟩, ⟨some RsVideoCodec.AV1, some 0, ".mkv"⟩⟩

/-- A job requesting H265 with no quality value. -/
def jobH265 : VideoConvertJob :=
  ⟨some ⟨some "u"⟩, ⟨some RsVideoCodec.H265, none, ".mkv"⟩⟩

/-- A job requesting AV1 with an explicit nonzero quality value. -/
def jobCrf20 : VideoConvertJob :=
  ⟨some ⟨some "u"⟩, ⟨some RsVideoCodec.AV1, some 20, ".mkv"⟩⟩

/-- C2: the initial record written at submission (core/api.py lines 25-29 and
main.py line 328 both store `{"status": "queued", "progress": 0, "message":
"Queued"}`) carries no created_at key, so the claim that every initial state
record contains a created_at timestamp fails on every submission; the
sweeper later reads the missing key as 0. -/
theorem submit_record_has_no_created_at :
    submit "job-1" sampleJob [] =
      .ok ([.writeState "job-1" queuedRec, .spawnWorker "job-1"],
           [("job-1", queuedRec)], "job-1")
    ∧ queuedRec.created_at = none :=
  ⟨rfl, rfl⟩

/-- C8: for every accepted submission, submit's effects are the initial
queued write followed by the worker handoff (in that order), and the store
submit returns already answers a status query for the new id with the queued
record, never a 404. -/
theorem submit_write_visible_before_spawn :
    ∀ (newId : String) (job : VideoConvertJob) (store : StoreMap),
      sourceUrlPresent job = true →
      submit newId job store =
        .ok ([.writeState newId queuedRec, .spawnWorker newId],
             setState store newId queuedRec, newId)
      ∧ statusEndpoint (setState store newId queuedRec) newId = .ok queuedRec := by
  intro newId job store h
  constructor
  · simp [submit, h]
  · simp [statusEndpoint, getState, setState]

/-- Witness for C8: the concrete sample submission. -/
theorem submit_write_visible_before_spawn_instance :
    submit "job-1" sampleJob [] =
      .ok ([.writeState "job-1" queuedRec, .spawnWorker "job-1"],
           setState [] "job-1" queuedRec, "job-1")
    ∧ statusEndpoint (setState [] "job-1" queuedRec) "job-1" = .ok queuedRec :=
  submit_write_visible_before_spawn "job-1" sampleJob [] rfl

/-- C1: when the source fetch raises (here a connect timeout), both worker
variants stop after the single "downloading" write and the exception escapes
the function: no failed record with the cause is ever stored, contradicting
the claimed queued/downloading-to-failed transition on fetch failure. -/
theorem fetch_failure_escapes :
    transcode_video "j1" sampleJob sampleStoragePath fetchFailEnv
      = ([mkRec .downloading 0 "Downloading source"], some "ConnectTimeout")
    ∧ transcode_worker "j1" sampleJob fetchFailEnv
      = ([mkRec .downloading 0 "Downloading source"], some "ConnectTimeout") :=
  ⟨rfl, rfl⟩

/-- C6 counterexample: with an explicit quality value of 0 in the request,
the built hardware-AV1 invocation carries "32" after "-cq", not the
requested "0": Python's `crf or 32` treats an explicit 0 as absent, so an
explicit quality value does not always win. -/
theorem crf_zero_uses_default :
    (build_ffmpeg_command jobCrf0 "src" "dst" true)[14]? = some "-cq"
    ∧ (build_ffmpeg_command jobCrf0 "src" "dst" true)[15]? = some "32"
    ∧ jobCrf0.request.crf = some 0
    ∧ toString (0 : ℤ) ≠ "32" := by
  refine ⟨rfl, rfl, rfl, by decide⟩

/-- C6 amended: an absent codec defaults to AV1; an absent quality value
uses the codec default (32 on the hardware-AV1 path and the software path,
28 on the hardware-HEVC path); an explicit NONZERO quality value always
wins, while an explicit 0 is replaced by the default (see the
counterexample). -/
theorem codec_quality_defaults :
    ∀ (job : VideoConvertJob) (src dst : String) (q : ℤ),
      (job.request.codec = none →
        (setDefaultCodec job.request).codec = some RsVideoCodec.AV1)
      ∧ (job.request.crf = none →
          (job.request.codec = some RsVideoCodec.AV1 →
            (build_ffmpeg_command job src dst true)[15]? = some "32")
          ∧ (job.request.codec = some RsVideoCodec.H265 →
            (build_ffmpeg_command job src dst true)[15]? = some "28")
          ∧ (build_ffmpeg_command job src dst false)[9]? = some "32")
      ∧ (job.request.crf = some q → q ≠ 0 →
          (job.request.codec = some RsVideoCodec.AV1 →
            (build_ffmpeg_command job src dst true)[15]? = some (toString q))
          ∧ (job.request.codec = some RsVideoCodec.H265 →
            (build_ffmpeg_command job src dst true)[15]? = some (toString q))
          ∧ (build_ffmpeg_command job src dst false)[9]? = some (toString q)) := by
  intro job src dst q
  refine ⟨?_, ?_, ?_⟩
  · intro h
    simp [setDefaultCodec, h]
  · intro hc
    refine ⟨?_, ?_, ?_⟩
    · intro hA
      simp [build_ffmpeg_command, hA, hc, pyOrInt]
      decide
    · intro hH
      simp [build_ffmpeg_command, hH, hc, pyOrInt]
      decide
    · simp [build_ffmpeg_command, hc, pyOrInt]
      decide
  · intro hq hq0
    refine ⟨?_, ?_, ?_⟩
    · intro hA
      simp [build_ffmpeg_command, hA, hq, pyOrInt, hq0]
    · intro hH
      simp [build_ffmpeg_command, hH, hq, pyOrInt, hq0]
    · simp [build_ffmpeg_command, hq, pyOrInt, hq0]

/-- Witness for C6 at concrete requests: default codec, HEVC default
quality, and an explicit nonzero quality. -/
theorem codec_quality_defaults_instance :
    (setDefaultCodec sampleJob.request).codec = some RsVideoCodec.AV1
    ∧ (build_ffmpeg_command jobH265 "s" "d" true)[15]? = some "28"
    ∧ (build_ffmpeg_command jobCrf20 "s" "d" true)[15]? = some (toString (20 : ℤ)) :=
  ⟨(codec_quality_defaults sampleJob "s" "d" 0).1 rfl,
   (((codec_quality_defaults jobH265 "s" "d" 0).2.1 rfl).2.1) rfl,
   (((codec_quality_defaults jobCrf20 "s" "d" 20).2.2 rfl (by decide)).1) rfl⟩

/-- C4 counterexample: with the store constantly holding a terminal record,
the SSE loop emits that record TWICE before stopping (the yield precedes the
sent_done check, so the loop yields once when it first sees the terminal
state and once more on the next tick before breaking), refuting emission
exactly once. -/
theorem sse_emits_terminal_twice :
    sseRun (fun _ => some doneRec) 5 false 0 = [doneRec, doneRec]
    ∧ (sseRun (fun _ => some doneRec) 5 false 0).count doneRec = 2 := by
  refine ⟨rfl, by decide⟩

/-- C4 amended: once the loop polls a terminal record (store constant from
then on), it emits that record, polls once more, emits it a second time and
only then terminates, for every fuel bound of at least two ticks; it never
emits a third time and never polls after the second emission. -/
theorem sse_terminal_double_emit :
    ∀ (poll : ℕ → Option StateRec) (r : StateRec) (fuel t : ℕ),
      (∀ s, poll s = some r) →
      (r.status = .completed ∨ r.status = .failed) →
      2 ≤ fuel →
      sseRun poll fuel false t = [r, r] := by
  intro poll r fuel t hp ht hf
  obtain ⟨n, rfl⟩ : ∃ n, fuel = n + 2 := ⟨fuel - 2, by omega⟩
  show sseRun poll (n + 1 + 1) false t = [r, r]
  unfold sseRun
  simp only [hp, Option.getD_some]
  rw [if_pos ht]
  simp only [Bool.false_eq_true, if_false]
  unfold sseRun
  simp only [hp, Option.getD_some]
  rw [if_pos ht]
  simp

/-- Witness for C4's amended statement: the constant terminal store with
fuel exactly two. -/
theorem sse_terminal_double_emit_instance :
    sseRun (fun _ => some doneRec) 2 false 0 = [doneRec, doneRec] :=
  sse_terminal_double_emit (fun _ => some doneRec) doneRec 2 0
    (fun _ => rfl) (Or.inl rfl) (le_refl 2)

/-- C9: both storage backends' delete_file coincide pointwise with the
spec's deletion contract delete_file_spec: a missing path is a no-op (no
error, state unchanged), an existing file is removed, and the parent
directory is removed exactly when it becomes empty. -/
theorem delete_file_refines_spec :
    ∀ (fs : FS) (p : String × String),
      LocalStorage.delete_file fs p = delete_file_spec fs p
      ∧ ModalStorage.delete_file fs p = delete_file_spec fs p := by
  intro fs p
  have hsame : ModalStorage.delete_file fs p = LocalStorage.delete_file fs p := rfl
  have key : LocalStorage.delete_file fs p = delete_file_spec fs p := by
    unfold LocalStorage.delete_file delete_file_spec
    by_cases hmem : p ∈ fs.files
    · simp only [if_pos hmem]
      by_cases hdir : p.1 ∈ fs.dirs
      · by_cases hempty :
          ((fs.files.erase p).filter (fun q => decide (q.1 = p.1))).isEmpty = true
        · simp [hdir, hempty]
        · simp [hdir, hempty]
      · have herase : fs.dirs.erase p.1 = fs.dirs := List.erase_of_not_mem hdir
        by_cases hempty :
          ((fs.files.erase p).filter (fun q => decide (q.1 = p.1))).isEmpty = true
        · simp [hdir, hempty, herase]
        · simp [hdir, hempty]
    · simp only [if_neg hmem]
  exact ⟨key, hsame.trans key⟩

/-- C5 counterexample: a completed, undownloaded, undeleted job created
exactly at now - retention_window (now = 100000, created_at = 13600) is NOT
deleted by the sweeper: cleanup_old_files requires created_at strictly below
the cutoff, so the record and the filesystem come back unchanged and the
output file still exists. -/
theorem cleanup_boundary_not_deleted :
    cleanupJob (retentionCutoff 100000) 100001 boundaryRec boundaryFS
      = (boundaryRec, boundaryFS)
    ∧ ("/vol/j", "output.mkv")
        ∈ (cleanupJob (retentionCutoff 100000) 100001 boundaryRec boundaryFS).2.files
    ∧ boundaryRec.created_at = some (100000 - 24 * 3600) := by
  have hcut : ¬ (boundaryRec.created_at.getD 0 < retentionCutoff 100000) := by
    simp [boundaryRec, retentionCutoff]
    norm_num
  have h1 : cleanupJob (retentionCutoff 100000) 100001 boundaryRec boundaryFS
      = (boundaryRec, boundaryFS) := by
    unfold cleanupJob
    rw [if_neg]
    intro hcond
    exact hcut hcond.2.2.2
  refine ⟨h1, ?_, ?_⟩
  · rw [h1]
    decide
  · show some (13600 : ℚ) = some (100000 - 24 * 3600)
    norm_num

/-- C5 amended: for a completed, undownloaded, not-yet-deleted job whose
output file exists, the sweeper deletes the file and marks the record
deleted exactly when created_at is STRICTLY before now - retention_window;
a job created exactly at the boundary is left alone. -/
theorem cleanup_strict_cutoff :
    ∀ (now tDel : ℚ) (recd : StateRec) (fs : FS) (p : String × String),
      recd.status = .completed →
      recd.downloaded.getD false = false →
      recd.deleted.getD false = false →
      recd.file_path = some p →
      p ∈ fs.files →
      fs.files.Nodup →
      ((p ∈ (cleanupJob (retentionCutoff now) tDel recd fs).2.files ↔
          ¬ (recd.created_at.getD 0 < now - 24 * 3600))
        ∧ ((cleanupJob (retentionCutoff now) tDel recd fs).1.deleted = some true ↔
            recd.created_at.getD 0 < now - 24 * 3600)) := by
  intro now tDel recd fs p hst hdl hde hfp hmem hnd
  have hcut : retentionCutoff now = now - 24 * 3600 := rfl
  by_cases hlt : recd.created_at.getD 0 < now - 24 * 3600
  · have hrun : cleanupJob (retentionCutoff now) tDel recd fs
        = (markDeleted recd tDel,
           if p.1 ∈ fs.dirs ∧ ((fs.files.erase p).filter (fun q => decide (q.1 = p.1))).isEmpty = true
           then ⟨fs.files.erase p, fs.dirs.erase p.1⟩
           else ⟨fs.files.erase p, fs.dirs⟩) := by
      unfold cleanupJob
      rw [if_pos ⟨hst, hdl, hde, by rw [hcut]; exact hlt⟩, hfp]
      simp [hmem]
    constructor
    · rw [hrun]
      have hnotmem : p ∉ fs.files.erase p := by
        intro hx
        exact absurd (List.Nodup.mem_erase_iff hnd |>.mp hx).1 (by simp)
      constructor
      · intro hx
        exfalso
        by_cases hco : p.1 ∈ fs.dirs ∧ ((fs.files.erase p).filter (fun q => decide (q.1 = p.1))).isEmpty = true
        · rw [if_pos hco] at hx
          exact hnotmem hx
        · rw [if_neg hco] at hx
          exact hnotmem hx
      · intro hx
        exact absurd hlt hx
    · rw [hrun]
      simp [markDeleted, hlt]
  · have hrun : cleanupJob (retentionCutoff now) tDel recd fs = (recd, fs) := by
      unfold cleanupJob
      rw [if_neg]
      intro hcond
      rw [hcut] at hcond
      exact hlt hcond.2.2.2
    rw [hrun]
    constructor
    · exact ⟨fun _ => hlt, fun _ => hmem⟩
    · constructor
      · intro hx
        rw [hx] at hde
        simp at hde
      · intro hx
        exact absurd hx hlt

/-- Witness for C5's amended statement: the record one second older than the
boundary (deleted), evaluated against the singleton filesystem. -/
theorem cleanup_strict_cutoff_instance :
    ((("/vol/j", "output.mkv")
        ∈ (cleanupJob (retentionCutoff 100000) 100001 olderRec boundaryFS).2.files ↔
        ¬ (olderRec.created_at.getD 0 < 100000 - 24 * 3600))
      ∧ ((cleanupJob (retentionCutoff 100000) 100001 olderRec boundaryFS).1.deleted = some true ↔
          olderRec.created_at.getD 0 < 100000 - 24 * 3600)) :=
  cleanup_strict_cutoff 100000 100001 olderRec boundaryFS ("/vol/j", "output.mkv")
    rfl rfl rfl rfl (by decide) (by decide)

/-- The sweeper write for one job either leaves the record unchanged or
applies exactly the deleted/deleted_at mutation. -/
theorem cleanupJob_fst :
    ∀ (cutoff tDel : ℚ) (recd : StateRec) (fs : FS),
      (cleanupJob cutoff tDel recd fs).1 = recd
      ∨ (cleanupJob cutoff tDel recd fs).1 = markDeleted recd tDel := by
  intro cutoff tDel recd fs
  unfold cleanupJob
  split
  · split
    · split
      · right; rfl
      · left; rfl
    · left; rfl
  · left; rfl

/-- C10: no reachable state record has `downloaded = true`: no write site in
the program ever sets the downloaded key (the download endpoints either
leave the record untouched or, via delete_file_task, update only
deleted/deleted_at), so every stored record satisfies the sweeper's
`not data.get("downloaded", False)` condition forever. -/
theorem downloaded_never_true :
    ∀ d : StateRec, ReachableRec d → d.downloaded.getD false = false := by
  intro d h
  induction h with
  | submitWrite => rfl
  | downloadingWrite => rfl
  | encodingStartWrite => rfl
  | progressWrite pct => rfl
  | completedWrite p fname => rfl
  | failedCoreWrite => rfl
  | failedMainWrite pct msg => rfl
  | deleteTaskWrite d t _ ih => simpa [markDeleted] using ih
  | sweeperWrite cutoff tDel d fs _ ih =>
      rcases cleanupJob_fst cutoff tDel d fs with hx | hx
      · rw [hx]; exact ih
      · rw [hx]; simpa [markDeleted] using ih

/-- Witness for C10: a completed record that went through both
deletion-metadata writers still reads downloaded as false. -/
theorem downloaded_never_true_instance :
    ((cleanupJob 100 101 (markDeleted doneRec 5) boundaryFS).1).downloaded.getD false
      = false :=
  downloaded_never_true _
    (ReachableRec.sweeperWrite 100 101 (markDeleted doneRec 5) boundaryFS
      (ReachableRec.deleteTaskWrite doneRec 5
        (ReachableRec.completedWrite ("/vol/j", "output.mkv") "output.mkv")))

/-- C3: a job whose encode reaches 50 percent and then fails with exit code
1.  The main.py variant writes the failed record the claim describes
(progress kept at 50, message carrying the exit code), but core/worker.py's
transcode_video overwrites progress with the literal 0 and the fixed message
"Encoding failed": the failed record does not keep the last observed
progress value, refuting the claim for that variant. -/
theorem failed_write_resets_progress :
    transcode_video "j1" sampleJob sampleStoragePath exitFailEnv
      = ([mkRec .downloading 0 "Downloading source",
          mkRec .encoding 0 "Encoding started",
          mkRec .encoding 50 "Encoding in progress",
          mkRec .failed 0 "Encoding failed"], none)
    ∧ transcode_worker "j1" sampleJob exitFailEnv
      = ([mkRec .downloading 0 "Downloading source",
          mkRec .encoding 0 "Encoding started",
          mkRec .encoding 50 "Encoding in progress",
          mkRec .failed 50 "FFmpeg exited with code 1"], none) := by
  have hq : (500 : ℚ) / (1 * 1000) * 100 = 50 := by norm_num
  have hpct : pctStep (some 1) 0 (FfLine.outTime 500) = 50 := by
    simp [pctStep, hq, pyTrunc]
    norm_num
  have hloop : encodeLoop (some 1) [(FfLine.outTime 500, 1)] 0 0
      = ([mkRec .encoding 50 "Encoding in progress"], 50) := by
    simp [encodeLoop, hpct]
    norm_num
  constructor
  · simp [transcode_video, exitFailEnv, setDefaultCodec, sampleJob, hloop]
  · simp [transcode_worker, exitFailEnv, setDefaultCodec, sampleJob, hloop]
    decide

/-- Python truncation toward zero is monotone. -/
theorem pyTrunc_mono : ∀ {a b : ℚ}, a ≤ b → pyTrunc a ≤ pyTrunc b := by
  intro a b h
  unfold pyTrunc
  by_cases ha : (0:ℚ) ≤ a
  · rw [if_pos ha, if_pos (ha.trans h)]
    exact Int.floor_mono h
  · by_cases hb : (0:ℚ) ≤ b
    · rw [if_neg ha, if_pos hb]
      have h1 : ⌈a⌉ ≤ 0 := Int.ceil_le.mpr (by simpa using (le_of_not_le ha))
      have h2 : (0:ℤ) ≤ ⌊b⌋ := Int.floor_nonneg.mpr hb
      omega
    · rw [if_neg ha, if_neg hb]
      exact Int.ceil_mono h

/-- Python truncation of a nonnegative value is nonnegative. -/
theorem pyTrunc_nonneg : ∀ {q : ℚ}, 0 ≤ q → 0 ≤ pyTrunc q := by
  intro q h
  unfold pyTrunc
  rw [if_pos h]
  exact Int.floor_nonneg.mpr h

/-- One progress step never leaves the at-most-99 range: the update is
clamped by `min(99, ...)` and every other case keeps the old value. -/
theorem pctStep_le_99 :
    ∀ (dur : Option ℚ) (pct : ℤ) (ln : FfLine),
      pct ≤ 99 → pctStep dur pct ln ≤ 99 := by
  intro dur pct ln h
  cases ln with
  | outTime v =>
      cases dur with
      | none => simpa [pctStep] using h
      | some d =>
          simp only [pctStep]
          split
          · exact min_le_left _ _
          · exact h
  | outTimeBad => simpa [pctStep] using h
  | otherLine => simpa [pctStep] using h

/-- Every write the progress loop emits has status encoding, the progress
message, and a progress value of at most 99 (given the loop starts at most
at 99); the carried pct stays at most 99 as well. -/
theorem encodeLoop_writes :
    ∀ (dur : Option ℚ) (lines : List (FfLine × ℚ)) (pct0 : ℤ) (le0 : ℚ),
      pct0 ≤ 99 →
      (∀ r ∈ (encodeLoop dur lines pct0 le0).1,
          r.status = .encoding ∧ r.message = some "Encoding in progress"
            ∧ r.progress ≤ 99)
      ∧ (encodeLoop dur lines pct0 le0).2 ≤ 99 := by
  intro dur lines
  induction lines with
  | nil =>
      intro pct0 le0 h
      exact ⟨by simp [encodeLoop], by simpa [encodeLoop] using h⟩
  | cons hd tl ih =>
      obtain ⟨ln, now⟩ := hd
      intro pct0 le0 h
      have h' : pctStep dur pct0 ln ≤ 99 := pctStep_le_99 dur pct0 ln h
      by_cases hemit : (1:ℚ)/2 < now - le0
      · have heq : encodeLoop dur ((ln, now) :: tl) pct0 le0 =
            (mkRec .encoding (pctStep dur pct0 ln) "Encoding in progress" ::
               (encodeLoop dur tl (pctStep dur pct0 ln) now).1,
             (encodeLoop dur tl (pctStep dur pct0 ln) now).2) := by
          show (if (1:ℚ)/2 < now - le0 then
                  (mkRec .encoding (pctStep dur pct0 ln) "Encoding in progress" ::
                     (encodeLoop dur tl (pctStep dur pct0 ln) now).1,
                   (encodeLoop dur tl (pctStep dur pct0 ln) now).2)
                else encodeLoop dur tl (pctStep dur pct0 ln) le0) = _
          exact if_pos hemit
        rw [heq]
        obtain ⟨ihw, ihp⟩ := ih (pctStep dur pct0 ln) now h'
        refine ⟨?_, ihp⟩
        intro r hr
        rcases List.mem_cons.mp hr with rfl | hr
        · exact ⟨rfl, rfl, h'⟩
        · exact ihw r hr
      · have heq : encodeLoop dur ((ln, now) :: tl) pct0 le0 =
            encodeLoop dur tl (pctStep dur pct0 ln) le0 := by
          show (if (1:ℚ)/2 < now - le0 then
                  (mkRec .encoding (pctStep dur pct0 ln) "Encoding in progress" ::
                     (encodeLoop dur tl (pctStep dur pct0 ln) now).1,
                   (encodeLoop dur tl (pctStep dur pct0 ln) now).2)
                else encodeLoop dur tl (pctStep dur pct0 ln) le0) = _
          exact if_neg hemit
        rw [heq]
        exact ih (pctStep dur pct0 ln) le0 h'

/-- The progress values the loop emits are sorted, provided the parsed
out_time values arrive in non-decreasing order and the starting pct is below
every update they induce; the starting pct heads the chain. -/
theorem encodeLoop_sorted :
    ∀ (dur : Option ℚ) (lines : List (FfLine × ℚ)) (pct0 : ℤ) (le0 : ℚ),
      List.Pairwise (· ≤ ·) (parsedTimes lines) →
      (∀ v ∈ parsedTimes lines, pct0 ≤ pctStep dur pct0 (FfLine.outTime v)) →
      List.Sorted (· ≤ ·)
        (pct0 :: ((encodeLoop dur lines pct0 le0).1.map (fun r => r.progress))) := by
  intro dur lines
  induction lines with
  | nil =>
      intro pct0 le0 _ _
      simp [encodeLoop]
  | cons hd tl ih =>
      obtain ⟨ln, now⟩ := hd
      intro pct0 le0 hpw hge
      have hstep : pct0 ≤ pctStep dur pct0 ln ∧
          (∀ w ∈ parsedTimes tl,
            pctStep dur pct0 ln ≤
              pctStep dur (pctStep dur pct0 ln) (FfLine.outTime w)) ∧
          List.Pairwise (· ≤ ·) (parsedTimes tl) := by
        cases ln with
        | outTime v =>
            have hp : parsedTimes ((FfLine.outTime v, now) :: tl)
                = v :: parsedTimes tl := by
              simp [parsedTimes]
            rw [hp] at hpw hge
            have hv := hge v (List.mem_cons_self v _)
            refine ⟨hv, ?_, (List.pairwise_cons.mp hpw).2⟩
            intro w hw
            have hvw : v ≤ w := (List.pairwise_cons.mp hpw).1 w hw
            cases dur with
            | none => simp [pctStep]
            | some d =>
                by_cases hdp : (0:ℚ) < d
                · simp only [pctStep, if_pos hdp]
                  refine min_le_min (le_refl _) (pyTrunc_mono ?_)
                  have hd1000 : (0:ℚ) < d * 1000 :=
                    mul_pos hdp (by norm_num)
                  rw [div_eq_mul_inv, div_eq_mul_inv]
                  exact mul_le_mul_of_nonneg_right
                    (mul_le_mul_of_nonneg_right hvw (inv_nonneg.mpr hd1000.le))
                    (by norm_num)
                · simp [pctStep, if_neg hdp]
        | outTimeBad =>
            have hp : parsedTimes ((FfLine.outTimeBad, now) :: tl)
                = parsedTimes tl := by
              simp [parsedTimes]
            rw [hp] at hpw hge
            exact ⟨le_refl _, fun w hw => by simpa [pctStep] using hge w hw, hpw⟩
        | otherLine =>
            have hp : parsedTimes ((FfLine.otherLine, now) :: tl)
                = parsedTimes tl := by
              simp [parsedTimes]
            rw [hp] at hpw hge
            exact ⟨le_refl _, fun w hw => by simpa [pctStep] using hge w hw, hpw⟩
      obtain ⟨h1, h2, h3⟩ := hstep
      by_cases hemit : (1:ℚ)/2 < now - le0
      · have heq : encodeLoop dur ((ln, now) :: tl) pct0 le0 =
            (mkRec .encoding (pctStep dur pct0 ln) "Encoding in progress" ::
               (encodeLoop dur tl (pctStep dur pct0 ln) now).1,
             (encodeLoop dur tl (pctStep dur pct0 ln) now).2) := by
          show (if (1:ℚ)/2 < now - le0 then
                  (mkRec .encoding (pctStep dur pct0 ln) "Encoding in progress" ::
                     (encodeLoop dur tl (pctStep dur pct0 ln) now).1,
                   (encodeLoop dur tl (pctStep dur pct0 ln) now).2)
                else encodeLoop dur tl (pctStep dur pct0 ln) le0) = _
          exact if_pos hemit
        rw [heq]
        have hrec := ih (pctStep dur pct0 ln) now h3 h2
        simp only [List.map_cons]
        rw [List.sorted_cons]
        refine ⟨?_, hrec⟩
        intro b hb
        rcases List.mem_cons.mp hb with rfl | hb
        · exact h1
        · exact h1.trans ((List.sorted_cons.mp hrec).1 b hb)
      · have heq : encodeLoop dur ((ln, now) :: tl) pct0 le0 =
            encodeLoop dur tl (pctStep dur pct0 ln) le0 := by
          show (if (1:ℚ)/2 < now - le0 then
                  (mkRec .encoding (pctStep dur pct0 ln) "Encoding in progress" ::
                     (encodeLoop dur tl (pctStep dur pct0 ln) now).1,
                   (encodeLoop dur tl (pctStep dur pct0 ln) now).2)
                else encodeLoop dur tl (pctStep dur pct0 ln) le0) = _
          exact if_neg hemit
        rw [heq]
        have hrec := ih (pctStep dur pct0 ln) le0 h3 h2
        rw [List.sorted_cons] at hrec ⊢
        exact ⟨fun b hb => h1.trans (hrec.1 b hb), hrec.2⟩

/-- Shape of the successful-fetch trace of transcode_video: the downloading
and encoding-start writes, the loop's throttled writes, and one terminal
write, which is the completed record (progress 100) on success and the
generic failed record otherwise; a stream exception or non-zero exit always
yields the failed record. -/
theorem transcode_video_trace :
    ∀ (jobId : String) (job : VideoConvertJob)
      (storagePath : String → String → String × String) (env : WorkerEnv),
      env.fetchErr = none →
      ∃ final : StateRec,
        (transcode_video jobId job storagePath env).1
          = mkRec .downloading 0 "Downloading source"
            :: mkRec .encoding 0 "Encoding started"
            :: (encodeLoop env.duration_s env.lines 0 env.t0).1 ++ [final]
        ∧ (final.status = .completed ∧ final.progress = 100
            ∨ final = mkRec .failed 0 "Encoding failed")
        ∧ ((env.streamErr ≠ none ∨ env.exitCode ≠ 0) →
            final = mkRec .failed 0 "Encoding failed") := by
  intro jobId job storagePath env h
  cases hse : env.streamErr with
  | some e =>
      refine ⟨mkRec .failed 0 "Encoding failed", ?_, Or.inr rfl, fun _ => rfl⟩
      simp [transcode_video, h, hse]
  | none =>
      by_cases hec : env.exitCode = 0
      · refine ⟨⟨.completed, 100, some "Done",
            some (storagePath jobId
              ("output" ++ (setDefaultCodec job.request).formatExt)),
            some ("output" ++ (setDefaultCodec job.request).formatExt),
            none, none, none, none⟩, ?_, Or.inl ⟨rfl, rfl⟩, ?_⟩
        · simp [transcode_video, h, hse, hec]
        · intro hx
          rcases hx with hx | hx
          · exact absurd rfl hx
          · exact absurd hec hx
      · refine ⟨mkRec .failed 0 "Encoding failed", ?_, Or.inr rfl, fun _ => rfl⟩
        simp [transcode_video, h, hse, hec]

/-- C7: for every run of transcode_video whose parsed out_time values are
non-decreasing and nonnegative (the engine's progress wire format), the
progress values of the encoding-status writes are monotonically
non-decreasing and never exceed 99; in the whole trace, progress is 100
exactly on the completed record; and when the stream raises or the engine
exits non-zero, no completed record (hence no progress 100) is written. -/
theorem progress_monotone_clamped :
    ∀ (jobId : String) (job : VideoConvertJob)
      (storagePath : String → String → String × String) (env : WorkerEnv),
      List.Pairwise (· ≤ ·) (parsedTimes env.lines) →
      (∀ v ∈ parsedTimes env.lines, 0 ≤ v) →
      List.Sorted (· ≤ ·)
        (((transcode_video jobId job storagePath env).1.filter
            (fun r => r.status = Status.encoding)).map (fun r => r.progress))
      ∧ (∀ r ∈ (transcode_video jobId job storagePath env).1,
            r.status = .encoding → r.progress ≤ 99)
      ∧ (∀ r ∈ (transcode_video jobId job storagePath env).1,
            (r.progress = 100 ↔ r.status = .completed))
      ∧ ((env.streamErr ≠ none ∨ env.exitCode ≠ 0) →
            ∀ r ∈ (transcode_video jobId job storagePath env).1,
              r.status ≠ .completed) := by
  intro jobId job storagePath env hpw hnn
  cases hfe : env.fetchErr with
  | some e =>
      have htr : (transcode_video jobId job storagePath env).1
          = [mkRec .downloading 0 "Downloading source"] := by
        simp [transcode_video, hfe]
      rw [htr]
      refine ⟨?_, ?_, ?_, ?_⟩
      · simp [mkRec]
      · intro r hr henc
        rcases List.mem_singleton.mp hr with rfl
        simp [mkRec] at henc
      · intro r hr
        rcases List.mem_singleton.mp hr with rfl
        simp [mkRec]
      · intro _ r hr
        rcases List.mem_singleton.mp hr with rfl
        simp [mkRec]
  | none =>
      obtain ⟨final, htr, hfin, hff⟩ :=
        transcode_video_trace jobId job storagePath env hfe
      have hws := (encodeLoop_writes env.duration_s env.lines 0 env.t0
        (by norm_num)).1
      have hge0 : ∀ v ∈ parsedTimes env.lines,
          (0:ℤ) ≤ pctStep env.duration_s 0 (FfLine.outTime v) := by
        intro v hv
        cases hd : env.duration_s with
        | none => simp [pctStep]
        | some d =>
            simp only [pctStep]
            by_cases hdp : (0:ℚ) < d
            · rw [if_pos hdp]
              refine le_min (by norm_num) (pyTrunc_nonneg ?_)
              have hv0 : (0:ℚ) ≤ v := hnn v hv
              have hd1000 : (0:ℚ) ≤ d * 1000 :=
                le_of_lt (mul_pos hdp (by norm_num))
              exact mul_nonneg (div_nonneg hv0 hd1000) (by norm_num)
            · rw [if_neg hdp]
      have hsorted := encodeLoop_sorted env.duration_s env.lines 0 env.t0 hpw hge0
      have hfinal_filter :
          (decide (final.status = Status.encoding)) = false := by
        rcases hfin with ⟨hc, _⟩ | rfl
        · rw [hc]; rfl
        · rfl
      have hws_eq : List.filter (fun r => decide (r.status = Status.encoding))
          (encodeLoop env.duration_s env.lines 0 env.t0).1
          = (encodeLoop env.duration_s env.lines 0 env.t0).1 :=
        List.filter_eq_self.mpr (fun r hr => by
          rw [decide_eq_true_eq]
          exact (hws r hr).1)
      have hfil : ((transcode_video jobId job storagePath env).1.filter
            (fun r => r.status = Status.encoding))
          = mkRec .encoding 0 "Encoding started"
            :: (encodeLoop env.duration_s env.lines 0 env.t0).1 := by
        rw [htr, List.filter_append, List.filter_cons, List.filter_cons, hws_eq]
        simp [mkRec, hfinal_filter]
      refine ⟨?_, ?_, ?_, ?_⟩
      · rw [hfil]
        simpa [mkRec] using hsorted
      · rw [htr]
        intro r hr henc
        simp only [List.mem_append, List.mem_cons, List.not_mem_nil, or_false] at hr
        rcases hr with (rfl | rfl | hr) | rfl
        · simp [mkRec] at henc
        · norm_num [mkRec]
        · exact (hws r hr).2.2
        · rcases hfin with ⟨hc, _⟩ | rfl
          · rw [hc] at henc; cases henc
          · norm_num [mkRec]
      · rw [htr]
        intro r hr
        simp only [List.mem_append, List.mem_cons, List.not_mem_nil, or_false] at hr
        rcases hr with (rfl | rfl | hr) | rfl
        · simp [mkRec]
        · simp [mkRec]
        · refine iff_of_false (fun h100 => ?_) (fun hcomp => ?_)
          · have := (hws r hr).2.2
            omega
          · rw [(hws r hr).1] at hcomp
            cases hcomp
        · rcases hfin with ⟨hc, hp⟩ | rfl
          · simp [hc, hp]
          · simp [mkRec]
      · intro hx
        rw [htr]
        intro r hr
        simp only [List.mem_append, List.mem_cons, List.not_mem_nil, or_false] at hr
        rcases hr with (rfl | rfl | hr) | rfl
        · simp [mkRec]
        · simp [mkRec]
        · rw [(hws r hr).1]
          simp
        · rw [hff hx]
          simp [mkRec]

/-- Witness for C7: the concrete successful run that reaches 50 percent;
its encoding-progress chain is sorted. -/
theorem progress_monotone_clamped_instance :
    List.Sorted (· ≤ ·)
      (((transcode_video "j1" sampleJob sampleStoragePath progressEnv).1.filter
          (fun r => r.status = Status.encoding)).map (fun r => r.progress)) :=
  (progress_monotone_clamped "j1" sampleJob sampleStoragePath progressEnv
    (by simp [parsedTimes, progressEnv])
    (by
      intro v hv
      simp [parsedTimes, progressEnv] at hv
      rw [hv]
      norm_num)).1

end ModalConvert
